import Mathlib

/-!
Shallow embedding of the PubMedAPI repository (PubMedSearch.py,
PubMedArticle.py, PubMedCrawler.py).  The HTTP transport and the HTML page
parser are external collaborators (spec section 1); they are modelled as
oracles: a page-fetch function returning the structured rows of a result
page, a server-reported total count, and a detail-fetch function returning
the abstract of an article (or failing).  Everything else is translated
from the source.
-/

namespace PubMedAPI

/-- Python exceptions that the translated code can raise. -/
inductive PyErr where
  | typeError
  | attributeError
  | indexError
  | detailFetchError
  | invalidSearchFlag (flag : String)
deriving DecidableEq

/-- A shallow article row as built by `extractResults` / `extractRefferings`:
`PubMedArticle(id, title, authors, publication)`. -/
structure Article where
  id : String
  title : String
  authors : String
  publication : String
deriving DecidableEq

/-- The mutable state of a `PubMedSearch` object: `results_page`,
`n_results` and the `articles` list fetched so far. -/
structure SearchState where
  results_page : Nat
  n_results : Nat
  articles : List Article
deriving DecidableEq

/-- The in-memory `info` dictionary stored in `PubMedCrawler.results`
(built in `addArticle`, `found_by` grown by `addFoundBy`). -/
structure Entry where
  id : String
  title : String
  authors : String
  citation : String
  found_by : List String
  abstract : Option String
deriving DecidableEq

/-- The persistable state of a `PubMedCrawler`: the `results` dictionary
(insertion ordered, as a Python dict) and the optional `archivepath`. -/
structure CrawlerState where
  results : List (String × Entry)
  archivepath : Option String
deriving DecidableEq

/-- Instrumentation log: which article ids were passed to
`PubMedArticle.load`, to `saveMeta`, to `saveText`, which
`(id, search_str)` pairs to `saveFoundBy`, and which `(query, page)`
fetches were sent to the server. -/
structure CrawlLog where
  loadCalls : List String
  metaSaves : List String
  textSaves : List String
  foundBySaves : List (String × String)
  pageFetches : List (String × Nat)
deriving DecidableEq

/-- The empty instrumentation log. -/
def emptyLog : CrawlLog := ⟨[], [], [], [], []⟩

/-- The external capabilities consumed by the core (spec section 6):
the server-reported total for a query, the rows of a result page, and the
detail fetch for an article id (`none` models an exception escaping
`PubMedArticle.load`; `some abs` a successful load with optional
abstract). -/
structure FetchEnv where
  total : String → Nat
  page : String → Nat → List Article
  detail : String → Option (Option String)

/-- `search_str.replace(' ', '+')` from `PubMedCrawler.searchFor`. -/
def pySpaceToPlus (s : String) : String :=
  String.mk (s.toList.map (fun c => if c = ' ' then '+' else c))

/-- The `not_older_than` block of `PubMedSearch.buildQuery`: Python
truthiness (`if not_older_than:`) means `None` and the empty string skip
the block; otherwise the three recognized flags append a filter and any
other value raises `Exception('Invalid search flag ...')`. -/
def dateFiltered (q : String) (noth : Option String) : Except PyErr String :=
  match noth with
  | none => .ok q
  | some s =>
    if s = "" then .ok q
    else if s = "1_year" then .ok (q ++ "&filter=datesearch.y_1")
    else if s = "5_years" then .ok (q ++ "&filter=datesearch.y_5")
    else if s = "10_years" then .ok (q ++ "&filter=datesearch.y_10")
    else .error (.invalidSearchFlag s)

/-- `PubMedSearch.buildQuery`: base term URL, then the date filter, then
the abstract filter.  Purely string building, no network access. -/
def buildQuery (search_str : String) (noth : Option String)
    (abstract_available : Bool) : Except PyErr String :=
  match dateFiltered ("https://pubmed.ncbi.nlm.nih.gov/?term=" ++ search_str) noth with
  | .error e => .error e
  | .ok q => .ok (if abstract_available then q ++ "&filter=simsearch1.fha" else q)

/-- `PubMedSearch.startFromQuery`: sets `results_page = 1`, sends the
query for page 1, reads `n_results` from the response and seeds
`articles` with the rows of page 1. -/
def startFromQuery (pageF : Nat → List Article) (total : Nat) : SearchState :=
  { results_page := 1, n_results := total, articles := pageF 1 }

/-- `PubMedSearch.grepMoreResults`: increments `results_page`, fetches
that page and appends its rows to `articles`. -/
def grepMore (pageF : Nat → List Article) (st : SearchState) : SearchState :=
  { st with results_page := st.results_page + 1,
            articles := st.articles ++ pageF (st.results_page + 1) }

/-- Outcome of fully consuming the `scan_results` generator: the yielded
articles, the final search state, the pages fetched by
`grepMoreResults` during iteration, and the exception (if any) that ended
the iteration. -/
structure ScanOut where
  yielded : List Article
  final : SearchState
  pages : List Nat
  err : Option PyErr
deriving DecidableEq

/-- The loop body of `PubMedSearch.scan_results`: `for at in
range(n_results)` (the remaining iteration count is the first argument),
`break` once `ix == limit`, call `grepMoreResults` when
`ix == len(articles)`, then yield `articles[ix]` (IndexError when the
index is still out of range). -/
def scanAux (pageF : Nat → List Article) (limit : Nat) :
    Nat → Nat → SearchState → ScanOut
  | 0, _, st => ⟨[], st, [], none⟩
  | fuel+1, ix, st =>
    if ix = limit then ⟨[], st, [], none⟩
    else
      let st' := if ix = st.articles.length then grepMore pageF st else st
      let ps : List Nat :=
        if ix = st.articles.length then [st.results_page + 1] else []
      match st'.articles[ix]? with
      | none => ⟨[], st', ps, some .indexError⟩
      | some a =>
        let r := scanAux pageF limit fuel (ix+1) st'
        ⟨a :: r.yielded, r.final, ps ++ r.pages, r.err⟩

/-- `PubMedSearch.scan_results limit`, consumed to the end. -/
def scanRun (pageF : Nat → List Article) (limit : Nat) (st : SearchState) :
    ScanOut :=
  scanAux pageF limit st.n_results 0 st

/-- Python dict key lookup over the insertion-ordered `results`. -/
def pyLookup (i : String) : List (String × Entry) → Option Entry
  | [] => none
  | (k, e) :: rest => if k = i then some e else pyLookup i rest

/-- Number of occurrences of an id in a log list. -/
def countId (i : String) : List String → Nat
  | [] => 0
  | x :: rest => (if x = i then 1 else 0) + countId i rest

/-- The in-place mutation `self.results[article.id]['found_by'].append(q)`. -/
def bumpFoundBy (k q : String) (l : List (String × Entry)) :
    List (String × Entry) :=
  l.map (fun p => if p.1 = k then (p.1, { p.2 with found_by := p.2.found_by ++ [q] }) else p)

/-- `PubMedCrawler.addArticle`: skip if the id is already a key of
`results`; otherwise call `article.load()` (which may raise), save the
abstract text and the metadata when an archive path is configured, and
insert the `info` dictionary (with `found_by = []`) into `results`. -/
def addArticle (detail : String → Option (Option String)) (a : Article)
    (s : CrawlerState) (g : CrawlLog) : CrawlerState × CrawlLog × Option PyErr :=
  if (pyLookup a.id s.results).isSome then (s, g, none)
  else
    let g1 := { g with loadCalls := g.loadCalls ++ [a.id] }
    match detail a.id with
    | none => (s, g1, some .detailFetchError)
    | some abs =>
      let g2 := if s.archivepath.isSome && abs.isSome then
          { g1 with textSaves := g1.textSaves ++ [a.id] } else g1
      let g3 := if s.archivepath.isSome then
          { g2 with metaSaves := g2.metaSaves ++ [a.id] } else g2
      let e : Entry := { id := a.id, title := a.title, authors := a.authors,
                         citation := a.publication, found_by := [], abstract := abs }
      ({ s with results := s.results ++ [(a.id, e)] }, g3, none)

/-- `PubMedCrawler.addFoundBy`: append the search string to the
`found_by` list of the entry and, when an archive path is configured,
append it to the persisted metadata file. -/
def addFoundBy (a : Article) (q : String) (s : CrawlerState) (g : CrawlLog) :
    CrawlerState × CrawlLog :=
  let s' := { s with results := bumpFoundBy a.id q s.results }
  let g' := if s.archivepath.isSome then
      { g with foundBySaves := g.foundBySaves ++ [(a.id, q)] } else g
  (s', g')

/-- The fused loop of `PubMedCrawler.searchFor`: the crawler pulls each
article from the `scan_results` generator (same pagination logic as
`scanAux`) and runs `addArticle` then `addFoundBy` on it; an exception in
either the generator or `addArticle` ends the whole call, keeping the
state mutations already made. -/
def crawlLoop (env : FetchEnv) (qstr : String) (limit : Nat) :
    Nat → Nat → SearchState → CrawlerState → CrawlLog →
    CrawlerState × CrawlLog × Option PyErr
  | 0, _, _, s, g => (s, g, none)
  | fuel+1, ix, st, s, g =>
    if ix = limit then (s, g, none)
    else
      let st' := if ix = st.articles.length then grepMore (env.page qstr) st else st
      let g' := if ix = st.articles.length then
          { g with pageFetches := g.pageFetches ++ [(qstr, st.results_page + 1)] }
        else g
      match st'.articles[ix]? with
      | none => (s, g', some .indexError)
      | some a =>
        match addArticle env.detail a s g' with
        | (s1, g1, some e) => (s1, g1, some e)
        | (s1, g1, none) =>
          let sg := addFoundBy a qstr s1 g1
          crawlLoop env qstr limit fuel (ix+1) st' sg.1 sg.2

/-- `PubMedCrawler.searchFor`: substitute spaces by `+`, build the query
(raising before any network access on a bad filter), fetch page 1 to
learn the total, then run the crawl loop over `scan_results limit`. -/
def searchFor (env : FetchEnv) (text : String) (limit : Nat)
    (noth : Option String) (abstract_available : Bool)
    (s : CrawlerState) (g : CrawlLog) : CrawlerState × CrawlLog × Option PyErr :=
  let qstr := pySpaceToPlus text
  match buildQuery qstr noth abstract_available with
  | .error e => (s, g, some e)
  | .ok _ =>
    let st := startFromQuery (env.page qstr) (env.total qstr)
    let g1 := { g with pageFetches := g.pageFetches ++ [(qstr, 1)] }
    crawlLoop env qstr limit st.n_results 0 st s g1

/-- One `searchFor` invocation in a crawl session. -/
structure Call where
  text : String
  limit : Nat
  noth : Option String
  abstract_available : Bool

/-- A sequence of `searchFor` calls against one crawler (exceptions are
caught by the operator between calls). -/
def runCalls (env : FetchEnv) : List Call → CrawlerState → CrawlLog →
    CrawlerState × CrawlLog
  | [], s, g => (s, g)
  | c :: rest, s, g =>
    let r := searchFor env c.text c.limit c.noth c.abstract_available s g
    runCalls env rest r.1 r.2.1

/-- The `found_by` list recorded for an id in `results`. -/
def foundByOf (s : CrawlerState) (i : String) : Option (List String) :=
  (pyLookup i s.results).map Entry.found_by

/-- Whether an `Except` value is a success. -/
def isOkB : Except PyErr String → Bool
  | .ok _ => true
  | .error _ => false

/-! ### PubMedArticle citation traversal (`articles_citing`) -/

/-- The attributes of a `PubMedArticle` object relevant to the
citation-expansion path.  `citing_page`, `citing`, `n_citations` and
`citations` are plain instance attributes; `none` models an attribute
that was never assigned (`__init__`, `setMetaData` and `load` never touch
any of them). -/
structure ArticleObj where
  id : String
  citing_page : Option Nat
  citing : Option (List Article)
  n_citations : Option Nat
  citations : Option (List Article)
deriving DecidableEq

/-- A `PubMedArticle` as produced by `__init__` (and unchanged by `load`
as far as the citation attributes go). -/
def mkArticleObj (i : String) : ArticleObj := ⟨i, none, none, none, none⟩

/-- `PubMedArticle.grepMoreResults`: `self.citing_page += 1`, fetch the
cited-by page for the new page number, then `self.citing += rows`.
Reading an attribute that was never assigned raises `AttributeError`;
the page fetch happens before `self.citing` is read. -/
def grepMoreCiting (fetchC : Nat → List Article) (a : ArticleObj) :
    ArticleObj × List Nat × Option PyErr :=
  match a.citing_page with
  | none => (a, [], some .attributeError)
  | some p =>
    let a1 := { a with citing_page := some (p+1) }
    let rows := fetchC (p+1)
    match a1.citing with
    | none => (a1, [p+1], some .attributeError)
    | some l => ({ a1 with citing := some (l ++ rows) }, [p+1], none)

/-- Outcome of fully consuming the `articles_citing` generator. -/
structure CiteOut where
  yielded : List Article
  final : ArticleObj
  pages : List Nat
  err : Option PyErr
deriving DecidableEq

/-- The `for at in range(self.n_citations)` loop of `articles_citing`:
break at `limit`, call `grepMoreResults` when the index reaches
`len(self.citations)`, then yield `self.citations[at]`. -/
def citeLoop (fetchC : Nat → List Article) (limit : Nat) :
    Nat → Nat → ArticleObj → CiteOut
  | 0, _, a => ⟨[], a, [], none⟩
  | fuel+1, ix, a =>
    if ix = limit then ⟨[], a, [], none⟩
    else
      match a.citations with
      | none => ⟨[], a, [], some .attributeError⟩
      | some cs =>
        match (if ix = cs.length then grepMoreCiting fetchC a else (a, [], none)) with
        | (a', ps, some e) => ⟨[], a', ps, some e⟩
        | (a', ps, none) =>
          match a'.citations with
          | none => ⟨[], a', ps, some .attributeError⟩
          | some cs' =>
            match cs'[ix]? with
            | none => ⟨[], a', ps, some .indexError⟩
            | some r =>
              let rest := citeLoop fetchC limit fuel (ix+1) a'
              ⟨r :: rest.yielded, rest.final, ps ++ rest.pages, rest.err⟩

/-- `PubMedArticle.articles_citing`: set `citing_page = 1`, call
`grepMoreResults` once, then iterate over `range(self.n_citations)`. -/
def articles_citing (fetchC : Nat → List Article) (limit : Nat)
    (a : ArticleObj) : CiteOut :=
  let a1 := { a with citing_page := some 1 }
  match grepMoreCiting fetchC a1 with
  | (a2, ps, some e) => ⟨[], a2, ps, some e⟩
  | (a2, ps, none) =>
    match a2.n_citations with
    | none => ⟨[], a2, ps, some .attributeError⟩
    | some n =>
      let r := citeLoop fetchC limit n 0 a2
      ⟨r.yielded, r.final, ps ++ r.pages, r.err⟩

/-! ### PubMedCrawler.save -/

/-- Whether a character list contains two consecutive underscores
(Python's `"__" in var`). -/
def hasDD : List Char → Bool
  | [] => false
  | [_] => false
  | a :: b :: rest => (a = '_' && b = '_') || hasDD (b :: rest)

/-- Python's `"__" in var`. -/
def hasDoubleUnderscore (s : String) : Bool := hasDD s.toList

/-- The sorted output of `dir(self)` for a `PubMedCrawler` instance:
dunder members first, then the methods of the class and the instance
attributes (`archivepath` only when it was set, `results` always). -/
def crawlerDir (s : CrawlerState) : List String :=
  ["__class__", "__delattr__", "__dict__", "__dir__", "__doc__", "__eq__",
   "__format__", "__ge__", "__getattribute__", "__gt__", "__hash__",
   "__init__", "__init_subclass__", "__le__", "__lt__", "__module__",
   "__ne__", "__new__", "__reduce__", "__reduce_ex__", "__repr__",
   "__setattr__", "__sizeof__", "__str__", "__subclasshook__", "__weakref__",
   "addArticle", "addFoundBy"]
  ++ (match s.archivepath with | some _ => ["archivepath"] | none => [])
  ++ ["load", "results", "save", "saveFoundBy", "saveMeta", "saveText",
      "searchFor", "setArchivePath"]

/-- The attribute-collection loop of `PubMedCrawler.save`: for each name
in `dir(self)`, skip it when `"__" in var`; otherwise Python evaluates
`isinstance(ref, callable())`, and `callable()` invoked with no argument
raises `TypeError` immediately. -/
def saveScan : List String → Except PyErr (List String)
  | [] => .ok []
  | v :: rest =>
    if hasDoubleUnderscore v then saveScan rest
    else .error .typeError

/-- `PubMedCrawler.save`: collect the serializable attribute names (the
dump phase is unreachable because the collection loop always raises). -/
def pySave (s : CrawlerState) : Except PyErr (List String) :=
  saveScan (crawlerDir s)

/-! ### A list-level view of the searchFor loop -/

/-- The `searchFor` consumer loop expressed over the list of articles
the generator will yield (valid when every needed article is already in
`articles`, i.e. no page fetch fires): `addArticle` then `addFoundBy`
for each article, stopping at `limit` or on the first exception. -/
def processLoop (detail : String → Option (Option String)) (q : String)
    (limit : Nat) :
    Nat → List Article → CrawlerState → CrawlLog →
    CrawlerState × CrawlLog × Option PyErr
  | _, [], s, g => (s, g, none)
  | ix, a :: rest, s, g =>
    if ix = limit then (s, g, none)
    else
      match addArticle detail a s g with
      | (s1, g1, some e) => (s1, g1, some e)
      | (s1, g1, none) =>
        let sg := addFoundBy a q s1 g1
        processLoop detail q limit (ix+1) rest sg.1 sg.2

/-- The log additions made by a successful `addArticle` on a fresh id. -/
def gAdd (ap : Option String) (abs : Option String) (i : String)
    (g : CrawlLog) : CrawlLog :=
  { g with loadCalls := g.loadCalls ++ [i],
           textSaves := if ap.isSome && abs.isSome then g.textSaves ++ [i]
                        else g.textSaves,
           metaSaves := if ap.isSome then g.metaSaves ++ [i] else g.metaSaves }

/-- The entry that a successful `addArticle` followed by `addFoundBy q`
stores for an article. -/
def entryFor (detail : String → Option (Option String)) (q : String)
    (a : Article) : String × Entry :=
  (a.id, ⟨a.id, a.title, a.authors, a.publication, [q], (detail a.id).getD none⟩)

/-- A server holding exactly one record: every query reports total 1 and
returns that record on page 1; detail fetches always succeed. -/
def oneRecEnv (x : Article) (abs : Option String) : FetchEnv :=
  { total := fun _ => 1, page := fun _ k => if k = 1 then [x] else [],
    detail := fun _ => some abs }

/-- A server whose every query returns the list `arts` on page 1 (total
`arts.length`); the detail fetch fails exactly for id `bad`. -/
def listEnv (arts : List Article) (bad : String)
    (dAbs : String → Option String) : FetchEnv :=
  { total := fun _ => arts.length,
    page := fun _ k => if k = 1 then arts else [],
    detail := fun i => if i = bad then none else some (dAbs i) }

/-- A well-behaved paginated server over a master list `L` with page
size `P`: page `k` (1-based) holds the `k`-th chunk of `L`. -/
def chunkPage (L : List Article) (P : Nat) : Nat → List Article :=
  fun k => (L.drop ((k - 1) * P)).take P

/-- The dedup invariant maintained by the crawler between operations:
an id whose detail fetch succeeds is in `results` once loaded and is
loaded at most once; an id is metadata-saved at most once and only when
it is in `results`. -/
def InvC2 (detail : String → Option (Option String)) (s : CrawlerState)
    (g : CrawlLog) : Prop :=
  ∀ i : String,
    ((detail i).isSome → (i ∈ g.loadCalls → (pyLookup i s.results).isSome)
        ∧ countId i g.loadCalls ≤ 1)
    ∧ (i ∈ g.metaSaves → (pyLookup i s.results).isSome)
    ∧ countId i g.metaSaves ≤ 1

/-- A concrete article row used in concrete runs. -/
def artW : Article := ⟨"7", "t", "au", "p"⟩

/-- A concrete single-record server whose detail fetches succeed. -/
def envGood : FetchEnv := oneRecEnv artW (some "A")

/-- A concrete single-record server whose detail fetches always fail. -/
def envBad : FetchEnv :=
  { total := fun _ => 1, page := fun _ k => if k = 1 then [artW] else [],
    detail := fun _ => none }

/-- A concrete three-record master list (for pagination counting). -/
def arts3 : List Article :=
  [⟨"1", "t", "a", "p"⟩, ⟨"2", "t", "a", "p"⟩, ⟨"3", "t", "a", "p"⟩]

/-- Concrete five-record search: records before the failing one. -/
def goodW : List Article := [⟨"1", "t1", "a1", "p1"⟩, ⟨"2", "t2", "a2", "p2"⟩]

/-- Concrete five-record search: the record whose detail fetch fails. -/
def badW : Article := ⟨"3", "t3", "a3", "p3"⟩

/-- Concrete five-record search: records after the failing one. -/
def restW : List Article := [⟨"4", "t4", "a4", "p4"⟩, ⟨"5", "t5", "a5", "p5"⟩]

/-! ## Helper lemmas -/

lemma pyLookup_append_some {i : String} {l₁ l₂ : List (String × Entry)}
    {v : Entry} (h : pyLookup i l₁ = some v) :
    pyLookup i (l₁ ++ l₂) = some v := by
  induction l₁ with
  | nil => simp [pyLookup] at h
  | cons p rest ih =>
    obtain ⟨k, e⟩ := p
    by_cases hk : k = i
    · simpa [pyLookup, hk] using h
    · rw [List.cons_append, pyLookup, if_neg hk]
      rw [pyLookup, if_neg hk] at h
      exact ih h

lemma pyLookup_append_none {i : String} {l₁ : List (String × Entry)}
    (l₂ : List (String × Entry)) (h : pyLookup i l₁ = none) :
    pyLookup i (l₁ ++ l₂) = pyLookup i l₂ := by
  induction l₁ with
  | nil => simp
  | cons p rest ih =>
    obtain ⟨k, e⟩ := p
    by_cases hk : k = i
    · simp [pyLookup, hk] at h
    · rw [List.cons_append, pyLookup, if_neg hk]
      rw [pyLookup, if_neg hk] at h
      exact ih h

lemma pyLookup_append_single_ne {i k : String} {l : List (String × Entry)}
    {e : Entry} (h : ¬ k = i) :
    pyLookup i (l ++ [(k, e)]) = pyLookup i l := by
  rcases hv : pyLookup i l with _ | v
  · rw [pyLookup_append_none _ hv, pyLookup, if_neg h, pyLookup]
  · exact pyLookup_append_some hv

lemma pyLookup_eq_none_of_not_mem {i : String} {l : List (String × Entry)}
    (h : i ∉ l.map Prod.fst) : pyLookup i l = none := by
  induction l with
  | nil => rfl
  | cons p rest ih =>
    obtain ⟨k, e⟩ := p
    simp only [List.map_cons, List.mem_cons, not_or] at h
    rw [pyLookup, if_neg (fun hk => h.1 hk.symm)]
    exact ih h.2

lemma bumpFoundBy_not_mem {k q : String} {l : List (String × Entry)}
    (h : pyLookup k l = none) : bumpFoundBy k q l = l := by
  induction l with
  | nil => rfl
  | cons p rest ih =>
    obtain ⟨k', e⟩ := p
    by_cases hk : k' = k
    · simp [pyLookup, hk] at h
    · rw [pyLookup, if_neg hk] at h
      simp only [bumpFoundBy, List.map_cons] at ih ⊢
      rw [if_neg hk, ih h]

lemma pyLookup_bump_ne {i k q : String} {l : List (String × Entry)}
    (h : ¬ i = k) :
    pyLookup i (bumpFoundBy k q l) = pyLookup i l := by
  induction l with
  | nil => rfl
  | cons p rest ih =>
    obtain ⟨k', e⟩ := p
    by_cases hk : k' = k
    · subst hk
      simp only [bumpFoundBy, List.map_cons, if_pos rfl]
      rw [pyLookup, pyLookup, if_neg (fun he => h he.symm),
          if_neg (fun he => h he.symm)]
      exact ih
    · simp only [bumpFoundBy, List.map_cons, if_neg hk]
      by_cases hi : k' = i
      · rw [pyLookup, pyLookup, if_pos hi, if_pos hi]
      · rw [pyLookup, pyLookup, if_neg hi, if_neg hi]
        exact ih

lemma pyLookup_bump_eq {k q : String} {l : List (String × Entry)} :
    pyLookup k (bumpFoundBy k q l) =
      (pyLookup k l).map (fun e => { e with found_by := e.found_by ++ [q] }) := by
  induction l with
  | nil => rfl
  | cons p rest ih =>
    obtain ⟨k', e⟩ := p
    by_cases hk : k' = k
    · simp only [bumpFoundBy, List.map_cons, if_pos hk]
      rw [pyLookup, pyLookup, if_pos hk, if_pos hk]
      rfl
    · simp only [bumpFoundBy, List.map_cons, if_neg hk]
      rw [pyLookup, pyLookup, if_neg hk, if_neg hk]
      exact ih

lemma pyLookup_bump_isSome {i k q : String} {l : List (String × Entry)} :
    (pyLookup i (bumpFoundBy k q l)).isSome = (pyLookup i l).isSome := by
  by_cases h : i = k
  · subst h
    rw [pyLookup_bump_eq]
    rcases pyLookup i l with _ | v <;> rfl
  · rw [pyLookup_bump_ne h]

lemma countId_append (i : String) (l₁ l₂ : List String) :
    countId i (l₁ ++ l₂) = countId i l₁ + countId i l₂ := by
  induction l₁ with
  | nil => simp [countId]
  | cons x rest ih => simp [countId, ih]; omega

lemma countId_eq_zero {i : String} {l : List String} (h : i ∉ l) :
    countId i l = 0 := by
  induction l with
  | nil => rfl
  | cons x rest ih =>
    simp only [List.mem_cons, not_or] at h
    rw [countId, if_neg (fun hx => h.1 hx.symm), ih h.2]

lemma countId_singleton (i x : String) :
    countId i [x] = if x = i then 1 else 0 := by
  simp [countId]

lemma addArticle_known {detail : String → Option (Option String)}
    {a : Article} {s : CrawlerState} {g : CrawlLog}
    (h : (pyLookup a.id s.results).isSome) :
    addArticle detail a s g = (s, g, none) := by
  simp [addArticle, h]

lemma addArticle_fail {detail : String → Option (Option String)}
    {a : Article} {s : CrawlerState} {g : CrawlLog}
    (h : pyLookup a.id s.results = none) (hd : detail a.id = none) :
    addArticle detail a s g =
      (s, { g with loadCalls := g.loadCalls ++ [a.id] }, some .detailFetchError) := by
  simp [addArticle, h, hd]

lemma addArticle_ok {detail : String → Option (Option String)}
    {a : Article} {s : CrawlerState} {g : CrawlLog} {abs : Option String}
    (h : pyLookup a.id s.results = none) (hd : detail a.id = some abs) :
    addArticle detail a s g =
      ({ s with results := s.results ++
          [(a.id, ⟨a.id, a.title, a.authors, a.publication, [], abs⟩)] },
       gAdd s.archivepath abs a.id g, none) := by
  simp only [addArticle, h, Option.isSome_none, Bool.false_eq_true, if_false, hd, gAdd]
  by_cases h1 : s.archivepath.isSome <;> by_cases h2 : abs.isSome <;>
    simp [h1, h2]

/-- When every article the loop can reach is already fetched, the fused
`searchFor` loop is the plain list-processing loop over the pending
slice of `articles` (no page fetch ever fires). -/
lemma crawlLoop_eq_processLoop (env : FetchEnv) (qstr : String) (limit : Nat) :
    ∀ (fuel ix : Nat) (st : SearchState) (s : CrawlerState) (g : CrawlLog),
      ix + fuel ≤ st.articles.length →
      crawlLoop env qstr limit fuel ix st s g =
        processLoop env.detail qstr limit ix ((st.articles.drop ix).take fuel) s g := by
  intro fuel
  induction fuel with
  | zero =>
    intro ix st s g _
    simp [crawlLoop, processLoop]
  | succ n ih =>
    intro ix st s g h
    have hlt : ix < st.articles.length := by omega
    have hdrop : st.articles.drop ix = st.articles[ix] :: st.articles.drop (ix+1) :=
      List.drop_eq_getElem_cons hlt
    rw [hdrop, List.take_succ_cons]
    by_cases hlim : ix = limit
    · simp [crawlLoop, processLoop, hlim]
    · have hne : ¬ ix = st.articles.length := by omega
      rw [crawlLoop, processLoop, if_neg hlim, if_neg hlim, if_neg hne,
          if_neg hne]
      simp only [List.getElem?_eq_getElem hlt]
      rcases haa : addArticle env.detail st.articles[ix] s g with ⟨s1, g1, e⟩
      rcases e with _ | e
      · exact ih (ix+1) st _ _ (by omega)
      · rfl

lemma invC2_addArticle {detail : String → Option (Option String)}
    {a : Article} {s : CrawlerState} {g : CrawlLog}
    (h : InvC2 detail s g) :
    InvC2 detail (addArticle detail a s g).1 (addArticle detail a s g).2.1 := by
  rcases hpl : pyLookup a.id s.results with _ | v
  · rcases hd : detail a.id with _ | abs
    · rw [addArticle_fail hpl hd]
      intro i
      rcases h i with ⟨h1, h2, h3⟩
      refine ⟨?_, h2, h3⟩
      intro hds
      rcases h1 hds with ⟨h11, h12⟩
      constructor
      · intro hmem
        rcases List.mem_append.mp hmem with hm | hm
        · exact h11 hm
        · exfalso
          have hia : i = a.id := by simpa using hm
          rw [hia, hd] at hds
          simp at hds
      · rw [countId_append, countId_singleton]
        by_cases hia : a.id = i
        · exfalso
          rw [← hia, hd] at hds
          simp at hds
        · simpa [hia] using h12
    · rw [addArticle_ok hpl hd]
      intro i
      rcases h i with ⟨h1, h2, h3⟩
      by_cases hia : i = a.id
      · subst hia
        refine ⟨?_, ?_, ?_⟩
        · intro hds
          have hnm : a.id ∉ g.loadCalls := fun hm => by
            have hx := (h1 hds).1 hm
            rw [hpl] at hx
            simp at hx
          constructor
          · intro _
            rw [pyLookup_append_none _ hpl, pyLookup, if_pos rfl]
            rfl
          · rw [gAdd]
            simp only [countId_append, countId_singleton, countId_eq_zero hnm]
            simp
        · intro _
          rw [pyLookup_append_none _ hpl, pyLookup, if_pos rfl]
          rfl
        · have hnm : a.id ∉ g.metaSaves := fun hm => by
            have hx := h2 hm
            rw [hpl] at hx
            simp at hx
          by_cases hap : s.archivepath.isSome
          · simp [gAdd, hap, countId_append, countId_singleton,
                  countId_eq_zero hnm]
          · simpa [gAdd, hap] using h3
      · have hne : ¬ (a.id = i) := fun he => hia he.symm
        have hpres : ∀ e : Entry,
            pyLookup i (s.results ++ [(a.id, e)]) = pyLookup i s.results :=
          fun _ => pyLookup_append_single_ne hne
        refine ⟨?_, ?_, ?_⟩
        · intro hds
          rcases h1 hds with ⟨h11, h12⟩
          constructor
          · intro hmem
            rw [gAdd] at hmem
            simp only [List.mem_append, List.mem_singleton] at hmem
            rcases hmem with hm | hm
            · rw [hpres]
              exact h11 hm
            · exact absurd hm hia
          · rw [gAdd]
            simp only [countId_append, countId_singleton, if_neg hne]
            simpa using h12
        · intro hmem
          rw [hpres]
          rw [gAdd] at hmem
          by_cases hap : s.archivepath.isSome
          · simp only [hap, if_true] at hmem
            simp only [List.mem_append, List.mem_singleton] at hmem
            rcases hmem with hm | hm
            · exact h2 hm
            · exact absurd hm hia
          · simp only [hap] at hmem
            simp at hmem
            exact h2 hmem
        · rw [gAdd]
          by_cases hap : s.archivepath.isSome
          · simp only [hap, if_true]
            rw [countId_append, countId_singleton, if_neg hne]
            simpa using h3
          · simpa [hap] using h3
  · rw [addArticle_known (by simp [hpl])]
    exact h

lemma invC2_addFoundBy {detail : String → Option (Option String)}
    {a : Article} {q : String} {s : CrawlerState} {g : CrawlLog}
    (h : InvC2 detail s g) :
    InvC2 detail (addFoundBy a q s g).1 (addFoundBy a q s g).2 := by
  intro i
  rcases h i with ⟨h1, h2, h3⟩
  have hb : (pyLookup i (bumpFoundBy a.id q s.results)).isSome
      = (pyLookup i s.results).isSome := pyLookup_bump_isSome
  by_cases hap : s.archivepath.isSome <;>
    simp only [addFoundBy, hap, if_true, if_false] <;>
    exact ⟨fun hds => ⟨fun hm => by rw [hb]; exact (h1 hds).1 hm, (h1 hds).2⟩,
           fun hm => by rw [hb]; exact h2 hm, h3⟩

lemma invC2_crawlLoop (env : FetchEnv) (qstr : String) (limit : Nat) :
    ∀ (fuel ix : Nat) (st : SearchState) (s : CrawlerState) (g : CrawlLog),
      InvC2 env.detail s g →
      InvC2 env.detail (crawlLoop env qstr limit fuel ix st s g).1
        (crawlLoop env qstr limit fuel ix st s g).2.1 := by
  intro fuel
  induction fuel with
  | zero =>
    intro ix st s g h
    simpa [crawlLoop] using h
  | succ n ih =>
    intro ix st s g h
    rw [crawlLoop]
    by_cases hlim : ix = limit
    · simpa [hlim] using h
    · rw [if_neg hlim]
      by_cases hf : ix = st.articles.length
      · simp only [if_pos hf]
        have hg' : InvC2 env.detail s
            { g with pageFetches := g.pageFetches ++ [(qstr, st.results_page + 1)] } := h
        rcases hx : (grepMore (env.page qstr) st).articles[ix]? with _ | a
        · simpa [hx] using hg'
        · simp only [hx]
          rcases haa : addArticle env.detail a s
              { g with pageFetches := g.pageFetches ++ [(qstr, st.results_page + 1)] }
            with ⟨s1, g1, e⟩
          have hstep := invC2_addArticle (a := a) hg'
          rw [haa] at hstep
          rcases e with _ | e
          · exact ih (ix+1) _ _ _ (invC2_addFoundBy hstep)
          · exact hstep
      · simp only [if_neg hf]
        rcases hx : st.articles[ix]? with _ | a
        · simpa [hx] using h
        · simp only [hx]
          rcases haa : addArticle env.detail a s g with ⟨s1, g1, e⟩
          have hstep := invC2_addArticle (a := a) h
          rw [haa] at hstep
          rcases e with _ | e
          · exact ih (ix+1) _ _ _ (invC2_addFoundBy hstep)
          · exact hstep

lemma invC2_searchFor (env : FetchEnv) (text : String) (limit : Nat)
    (noth : Option String) (aa : Bool) {s : CrawlerState} {g : CrawlLog}
    (h : InvC2 env.detail s g) :
    InvC2 env.detail (searchFor env text limit noth aa s g).1
      (searchFor env text limit noth aa s g).2.1 := by
  rw [searchFor]
  rcases hq : buildQuery (pySpaceToPlus text) noth aa with e | q
  · simpa using h
  · exact invC2_crawlLoop env _ limit _ 0 _ s _ h

lemma invC2_runCalls (env : FetchEnv) :
    ∀ (calls : List Call) (s : CrawlerState) (g : CrawlLog),
      InvC2 env.detail s g →
      InvC2 env.detail (runCalls env calls s g).1 (runCalls env calls s g).2 := by
  intro calls
  induction calls with
  | nil =>
    intro s g h
    simpa [runCalls] using h
  | cons c rest ih =>
    intro s g h
    rw [runCalls]
    exact ih _ _ (invC2_searchFor env c.text c.limit c.noth c.abstract_available h)

lemma invC2_start (detail : String → Option (Option String)) (ap : Option String) :
    InvC2 detail ⟨[], ap⟩ emptyLog := by
  intro i
  refine ⟨fun _ => ⟨fun hm => absurd hm (List.not_mem_nil _), ?_⟩,
          fun hm => absurd hm (List.not_mem_nil _), ?_⟩ <;>
    simp [emptyLog, countId]

lemma bumpFoundBy_append (k q : String) (l₁ l₂ : List (String × Entry)) :
    bumpFoundBy k q (l₁ ++ l₂) = bumpFoundBy k q l₁ ++ bumpFoundBy k q l₂ :=
  List.map_append _ _ _

lemma processLoop_fail_head {detail : String → Option (Option String)}
    {q : String} {limit ix : Nat} {bad : Article} {rest : List Article}
    {s : CrawlerState} {g : CrawlLog}
    (hd : detail bad.id = none) (hk : pyLookup bad.id s.results = none)
    (hlim : ¬ ix = limit) :
    processLoop detail q limit ix (bad :: rest) s g =
      (s, { g with loadCalls := g.loadCalls ++ [bad.id] },
       some .detailFetchError) := by
  rw [processLoop, if_neg hlim, addArticle_fail hk hd]

/-- Processing a block of fresh, successfully-loading articles prepends
their entries (each with provenance `[q]`) and hands the tail over at the
advanced index. -/
lemma processLoop_ok_append (detail : String → Option (Option String))
    (q : String) (limit : Nat) :
    ∀ (good : List Article) (tail : List Article) (ix : Nat)
      (s : CrawlerState) (g : CrawlLog),
      (∀ a ∈ good, (detail a.id).isSome) →
      (∀ a ∈ good, pyLookup a.id s.results = none) →
      (good.map Article.id).Nodup →
      ix + good.length ≤ limit →
      ∃ g' : CrawlLog,
        processLoop detail q limit ix (good ++ tail) s g =
          processLoop detail q limit (ix + good.length) tail
            { s with results := s.results ++ good.map (entryFor detail q) } g' := by
  intro good
  induction good with
  | nil =>
    intro tail ix s g _ _ _ _
    exact ⟨g, by simp⟩
  | cons a rest ih =>
    intro tail ix s g hds hfresh hnodup hlen
    have hlim : ¬ ix = limit := by
      simp only [List.length_cons] at hlen
      omega
    obtain ⟨abs, habs⟩ := Option.isSome_iff_exists.mp (hds a (by simp))
    have hfa : pyLookup a.id s.results = none := hfresh a (by simp)
    simp only [List.map_cons, List.nodup_cons] at hnodup
    obtain ⟨hanin, hnodup'⟩ := hnodup
    have hres : bumpFoundBy a.id q
        (s.results ++ [(a.id, ⟨a.id, a.title, a.authors, a.publication, [], abs⟩)])
        = s.results ++ [entryFor detail q a] := by
      rw [bumpFoundBy_append, bumpFoundBy_not_mem hfa]
      simp [bumpFoundBy, entryFor, habs]
    have hs1 : (addFoundBy a q
        { s with results := s.results ++
            [(a.id, ⟨a.id, a.title, a.authors, a.publication, [], abs⟩)] }
        (gAdd s.archivepath abs a.id g)).1
        = { s with results := s.results ++ [entryFor detail q a] } := by
      simp only [addFoundBy]
      rw [hres]
    obtain ⟨g'', hg''⟩ := ih tail (ix+1)
        { s with results := s.results ++ [entryFor detail q a] }
        ((addFoundBy a q
          { s with results := s.results ++
              [(a.id, ⟨a.id, a.title, a.authors, a.publication, [], abs⟩)] }
          (gAdd s.archivepath abs a.id g)).2)
        (fun b hb => hds b (by simp [hb]))
        (fun b hb => by
          have hbne : ¬ (a.id = b.id) := fun he => hanin (by
            rw [he]
            exact List.mem_map_of_mem Article.id hb)
          show pyLookup b.id (s.results ++ [entryFor detail q a]) = none
          rw [entryFor, pyLookup_append_single_ne hbne]
          exact hfresh b (by simp [hb]))
        hnodup'
        (by simp only [List.length_cons] at hlen; omega)
    refine ⟨g'', ?_⟩
    rw [List.cons_append, processLoop, if_neg hlim, addArticle_ok hfa habs]
    show processLoop detail q limit (ix+1) (rest ++ tail)
        (addFoundBy a q
          { s with results := s.results ++
              [(a.id, ⟨a.id, a.title, a.authors, a.publication, [], abs⟩)] }
          (gAdd s.archivepath abs a.id g)).1
        (addFoundBy a q
          { s with results := s.results ++
              [(a.id, ⟨a.id, a.title, a.authors, a.publication, [], abs⟩)] }
          (gAdd s.archivepath abs a.id g)).2 = _
    rw [hs1, hg'']
    have harith : ix + 1 + rest.length = ix + (a :: rest).length := by
      simp only [List.length_cons]
      omega
    rw [harith]
    congr 1
    simp

/-- Fetch-count invariant for the scan loop against a well-behaved
chunked server: at index `ix` with `p` pages fetched so far (so
`articles` holds the first `p * P` elements of the master list `L`), the
remaining traversal performs `(L.length - 1) / P + 1 - p` more page
fetches. -/
lemma scanAux_pages_count (L : List Article) (P limit : Nat)
    (hP : 0 < P) (hlim : L.length ≤ limit) :
    ∀ (fuel ix p : Nat), ix + fuel = L.length → ix ≤ p * P → 0 < p →
      (scanAux (chunkPage L P) limit fuel ix
        { results_page := p, n_results := L.length,
          articles := L.take (p * P) }).pages.length
        = (L.length - 1) / P + 1 - p := by
  intro fuel
  induction fuel with
  | zero =>
    intro ix p hfx hixp hp
    rw [scanAux]
    simp only [List.length_nil]
    rcases Nat.eq_zero_or_pos L.length with h0 | h0
    · rw [h0]
      simp
      omega
    · have : (L.length - 1) / P < p := by
        rw [Nat.div_lt_iff_lt_mul hP]
        omega
      omega
  | succ n ih =>
    intro ix p hfx hixp hp
    have hixlt : ix < L.length := by omega
    have hlimne : ¬ ix = limit := by omega
    have hlenT : (L.take (p * P)).length = min (p * P) L.length :=
      List.length_take _ _
    rw [scanAux, if_neg hlimne]
    by_cases hfetch : ix = (L.take (p * P)).length
    · have hixP : ix = p * P := by
        rw [hlenT] at hfetch
        omega
      have hPlt : p * P < L.length := by
        rw [hlenT] at hfetch
        omega
      have harts : L.take (p * P) ++ chunkPage L P (p + 1) = L.take ((p+1) * P) := by
        rw [chunkPage]
        simp only [Nat.add_sub_cancel]
        rw [← List.take_add, Nat.succ_mul]
      have hgrep : grepMore (chunkPage L P)
          { results_page := p, n_results := L.length, articles := L.take (p * P) }
          = { results_page := p + 1, n_results := L.length,
              articles := L.take ((p+1) * P) } := by
        rw [grepMore]
        simp only []
        rw [harts]
      simp only [if_pos hfetch, hgrep]
      have hlt2 : ix < (L.take ((p+1) * P)).length := by
        rw [List.length_take, Nat.succ_mul]
        omega
      rw [List.getElem?_eq_getElem hlt2]
      dsimp only
      have hrec := ih (ix+1) (p+1) (by omega)
        (by rw [Nat.succ_mul]; omega) (by omega)
      rw [List.length_append, hrec]
      have hple : p ≤ (L.length - 1) / P := by
        rw [Nat.le_div_iff_mul_le hP]
        omega
      simp only [List.length_singleton]
      omega
    · have hixlt2 : ix < (L.take (p * P)).length := by
        rw [hlenT]
        omega
      simp only [if_neg hfetch]
      rw [List.getElem?_eq_getElem hixlt2]
      dsimp only
      have hrec := ih (ix+1) p (by omega) (by omega) hp
      rw [List.nil_append]
      exact hrec

/-- A `searchFor` against the one-record server, where the record is not
yet known: the entry is inserted with provenance `[substituted query]`. -/
lemma searchFor_oneRec_fresh (x : Article) (abs : Option String) (q : String)
    (l : Nat) (hl : 0 < l) (s : CrawlerState) (g : CrawlLog)
    (hfresh : pyLookup x.id s.results = none) :
    searchFor (oneRecEnv x abs) q l none true s g =
      ({ s with results := s.results ++
          [(x.id, ⟨x.id, x.title, x.authors, x.publication, [pySpaceToPlus q], abs⟩)] },
       (addFoundBy x (pySpaceToPlus q)
         { s with results := s.results ++
             [(x.id, ⟨x.id, x.title, x.authors, x.publication, [], abs⟩)] }
         (gAdd s.archivepath abs x.id
           { g with pageFetches := g.pageFetches ++ [(pySpaceToPlus q, 1)] })).2,
       none) := by
  have h0l : ¬ (0 = l) := by omega
  have hq1 : buildQuery (pySpaceToPlus q) none true =
      .ok ("https://pubmed.ncbi.nlm.nih.gov/?term=" ++ pySpaceToPlus q
        ++ "&filter=simsearch1.fha") := rfl
  have hTot : (oneRecEnv x abs).total (pySpaceToPlus q) = 1 := rfl
  have hPage : (oneRecEnv x abs).page (pySpaceToPlus q) 1 = [x] := rfl
  have hDet : (oneRecEnv x abs).detail x.id = some abs := rfl
  rw [searchFor]
  simp only [hq1, startFromQuery, hTot, hPage]
  rw [crawlLoop_eq_processLoop (oneRecEnv x abs) (pySpaceToPlus q) l 1 0
      ⟨1, 1, [x]⟩ s _ (by simp)]
  simp only [List.drop_zero, List.take_succ_cons, List.take_zero]
  rw [processLoop, if_neg h0l, addArticle_ok hfresh hDet]
  have hs1 : (addFoundBy x (pySpaceToPlus q)
      { s with results := s.results ++
          [(x.id, ⟨x.id, x.title, x.authors, x.publication, [], abs⟩)] }
      (gAdd s.archivepath abs x.id
        { g with pageFetches := g.pageFetches ++ [(pySpaceToPlus q, 1)] })).1
      = { s with results := s.results ++
          [(x.id, ⟨x.id, x.title, x.authors, x.publication, [pySpaceToPlus q], abs⟩)] } := by
    simp only [addFoundBy]
    rw [bumpFoundBy_append, bumpFoundBy_not_mem hfresh]
    simp [bumpFoundBy]
  show processLoop _ _ l (0+1) [] _ _ = _
  rw [processLoop]
  rw [hs1]

/-- A `searchFor` against the one-record server, where the record is
already known: no load, only the provenance append. -/
lemma searchFor_oneRec_known (x : Article) (abs : Option String) (q : String)
    (l : Nat) (hl : 0 < l) (s : CrawlerState) (g : CrawlLog)
    (hknown : (pyLookup x.id s.results).isSome) :
    searchFor (oneRecEnv x abs) q l none true s g =
      ({ s with results := bumpFoundBy x.id (pySpaceToPlus q) s.results },
       (addFoundBy x (pySpaceToPlus q) s
         { g with pageFetches := g.pageFetches ++ [(pySpaceToPlus q, 1)] }).2,
       none) := by
  have h0l : ¬ (0 = l) := by omega
  have hq1 : buildQuery (pySpaceToPlus q) none true =
      .ok ("https://pubmed.ncbi.nlm.nih.gov/?term=" ++ pySpaceToPlus q
        ++ "&filter=simsearch1.fha") := rfl
  have hTot : (oneRecEnv x abs).total (pySpaceToPlus q) = 1 := rfl
  have hPage : (oneRecEnv x abs).page (pySpaceToPlus q) 1 = [x] := rfl
  rw [searchFor]
  simp only [hq1, startFromQuery, hTot, hPage]
  rw [crawlLoop_eq_processLoop (oneRecEnv x abs) (pySpaceToPlus q) l 1 0
      ⟨1, 1, [x]⟩ s _ (by simp)]
  simp only [List.drop_zero, List.take_succ_cons, List.take_zero]
  rw [processLoop, if_neg h0l, addArticle_known hknown]
  show processLoop _ _ l (0+1) [] _ _ = _
  rw [processLoop]
  simp only [addFoundBy]

/-! ## Claim theorems -/

/-- C4 (code bug): `PubMedCrawler.save` never produces a checkpoint: for
every crawler state the attribute-collection loop reaches a non-dunder
name (`addArticle` is the first) and evaluates
`isinstance(ref, callable())`, and `callable()` with no argument raises
`TypeError`.  Hence `restore(checkpoint())` can never reach the claimed
round-trip: no checkpoint is ever written. -/
theorem c4_save_always_raises (s : CrawlerState) :
    pySave s = .error PyErr.typeError := rfl

/-- C5 (code bug): the citation stream does not behave like the search
stream.  On a `PubMedArticle` as constructed by the class (which never
initializes `citing`, `citations` or `n_citations`), `articles_citing`
sets `citing_page = 1`, then its `grepMoreResults` increments the cursor
to 2 *before* fetching — so the one page it requests is page 2, not page
1 — and then raises `AttributeError` on `self.citing += ...`, yielding
nothing. -/
theorem c5_articles_citing_broken (fetchC : Nat → List Article) (limit : Nat)
    (i : String) :
    articles_citing fetchC limit (mkArticleObj i) =
      ⟨[], ⟨i, some 2, none, none, none⟩, [2], some .attributeError⟩ := rfl

/-- C8 (confirmed): when the traversal index has caught up with the
fetched items, the count is not yet exhausted (at least one iteration of
`range(n_results)` remains) and the limit is not reached, a page fetch
returning zero new items makes `scan_results` raise `IndexError` — a
hard surfaced error — rather than ending the iteration silently: nothing
further is yielded and the error is recorded. -/
theorem c8_empty_page_hard_error (pageF : Nat → List Article)
    (limit fuel ix : Nat) (st : SearchState)
    (hlim : ¬ ix = limit) (hcaught : ix = st.articles.length)
    (hempty : pageF (st.results_page + 1) = []) :
    (scanAux pageF limit (fuel+1) ix st).err = some .indexError
    ∧ (scanAux pageF limit (fuel+1) ix st).yielded = [] := by
  have harts : (grepMore pageF st).articles = st.articles := by
    rw [grepMore]
    simp [hempty]
  have hnone : (grepMore pageF st).articles[ix]? = none := by
    rw [harts]
    exact List.getElem?_eq_none (le_of_eq hcaught.symm)
  rw [scanAux, if_neg hlim]
  simp only [if_pos hcaught, hnone]
  exact ⟨by trivial, by trivial⟩

/-- Witness for C8 at a concrete stream state: total 3, one item short,
next page empty. -/
theorem c8_witness :
    (scanAux (fun _ => ([] : List Article)) 5 3 0 ⟨1, 3, []⟩).err
      = some PyErr.indexError
    ∧ (scanAux (fun _ => ([] : List Article)) 5 3 0 ⟨1, 3, []⟩).yielded = [] :=
  c8_empty_page_hard_error (fun _ => []) 5 2 0 ⟨1, 3, []⟩ (by decide) (by decide) rfl

/-- C2 (corrected): across any sequence of `searchFor` calls, an id whose
detail fetch succeeds is loaded at most once, and every id is
metadata-saved at most once; but an id whose detail fetch raises is not
marked known, so later calls retry its load (see the counterexample). -/
theorem c2_dedup_amended (env : FetchEnv) (calls : List Call)
    (ap : Option String) (i : String) :
    ((env.detail i).isSome →
      countId i (runCalls env calls ⟨[], ap⟩ emptyLog).2.loadCalls ≤ 1)
    ∧ countId i (runCalls env calls ⟨[], ap⟩ emptyLog).2.metaSaves ≤ 1 := by
  have h := invC2_runCalls env calls ⟨[], ap⟩ emptyLog (invC2_start env.detail ap)
  rcases h i with ⟨h1, _, h3⟩
  exact ⟨fun hds => (h1 hds).2, h3⟩

/-- C2 counterexample: with a record whose detail fetch always fails,
running the same search twice calls `load` twice for the same id — the
claimed "at most one detail fetch per distinct id" is false. -/
theorem c2_counterexample :
    countId "7" (runCalls envBad [⟨"q", 5, none, true⟩, ⟨"q", 5, none, true⟩]
      ⟨[], none⟩ emptyLog).2.loadCalls = 2
    ∧ ¬ countId "7" (runCalls envBad [⟨"q", 5, none, true⟩, ⟨"q", 5, none, true⟩]
      ⟨[], none⟩ emptyLog).2.loadCalls ≤ 1 := by
  exact ⟨by decide, by decide⟩

/-- Witness for C2 on a concrete succeeding run. -/
theorem c2_witness :
    countId "7" (runCalls envGood [⟨"q", 5, none, true⟩, ⟨"q", 5, none, true⟩]
      ⟨[], none⟩ emptyLog).2.loadCalls ≤ 1
    ∧ countId "7" (runCalls envGood [⟨"q", 5, none, true⟩, ⟨"q", 5, none, true⟩]
      ⟨[], none⟩ emptyLog).2.metaSaves ≤ 1 :=
  ⟨(c2_dedup_amended envGood [⟨"q", 5, none, true⟩, ⟨"q", 5, none, true⟩]
      none "7").1 rfl,
   (c2_dedup_amended envGood [⟨"q", 5, none, true⟩, ⟨"q", 5, none, true⟩]
      none "7").2⟩

/-- C6 (corrected): against a well-behaved server with page size `P`,
pulling all `T = L.length` items costs exactly `ceil(T / P)` page
fetches — counting the construction fetch of page 1 — whenever `T ≥ 1`;
but for `T = 0` the construction fetch still happens, so the total is 1,
not `ceil(0 / P) = 0` (see the counterexample). -/
theorem c6_pagination_amended (L : List Article) (P limit : Nat)
    (hP : 0 < P) (hlim : L.length ≤ limit) :
    (L ≠ [] →
      1 + (scanRun (chunkPage L P) limit
            (startFromQuery (chunkPage L P) L.length)).pages.length
        = (L.length + P - 1) / P)
    ∧ (L = [] →
      1 + (scanRun (chunkPage L P) limit
            (startFromQuery (chunkPage L P) L.length)).pages.length = 1) := by
  constructor
  · intro hne
    have hlen : 0 < L.length := List.length_pos.mpr hne
    have hstart : startFromQuery (chunkPage L P) L.length =
        { results_page := 1, n_results := L.length, articles := L.take (1 * P) } := by
      rw [startFromQuery]
      simp only [chunkPage, Nat.sub_self, Nat.zero_mul, List.drop_zero,
                 Nat.one_mul]
    rw [scanRun, hstart]
    have hkey := scanAux_pages_count L P limit hP hlim L.length 0 1
      (by omega) (by omega) (by omega)
    simp only [] at hkey ⊢
    rw [hkey]
    have hdiv : (L.length - 1 + P) / P = (L.length - 1) / P + 1 :=
      Nat.add_div_right _ hP
    have hlp : L.length + P - 1 = L.length - 1 + P := by omega
    rw [hlp, hdiv, Nat.add_sub_cancel]
    exact Nat.add_comm 1 _
  · intro h0
    subst h0
    rfl

/-- C6 counterexample: a stream whose server-reported total is `T = 0`
(with page size 1) has already performed the page-1 construction fetch,
so pulling all 0 items has cost 1 fetch, not `ceil(0 / 1) = 0`: the
claimed exact count is wrong at `T = 0`. -/
theorem c6_counterexample :
    ¬ (1 + (scanRun (chunkPage [] 1) 5
          (startFromQuery (chunkPage [] 1) ([] : List Article).length)).pages.length
        = (([] : List Article).length + 1 - 1) / 1) := by
  decide

/-- Witness for C6: three records, page size 2, hence 1 + 1 = 2 =
ceil(3 / 2) fetches. -/
theorem c6_witness :
    1 + (scanRun (chunkPage arts3 2) 5
          (startFromQuery (chunkPage arts3 2) arts3.length)).pages.length
      = (arts3.length + 2 - 1) / 2 :=
  (c6_pagination_amended arts3 2 5 (by decide) (by decide)).1 (by decide)

/-- C7 (corrected): any *truthy* date-filter value outside
`{1_year, 5_years, 10_years}` makes `searchFor` raise
`Invalid search flag` at query-build time, before any page fetch (the
fetch log is unchanged); `None` and the three recognized flags build
successfully.  However Python truthiness also lets the *empty string* —
a value outside the recognized set — through without an error (see the
counterexample), so the claim's "every value outside the set raises" is
too strong. -/
theorem c7_filter_amended :
    (∀ (env : FetchEnv) (t : String) (lim : Nat) (aa : Bool) (v : String)
       (st : CrawlerState) (g : CrawlLog),
       ¬ v = "" → v ∉ (["1_year", "5_years", "10_years"] : List String) →
       searchFor env t lim (some v) aa st g = (st, g, some (.invalidSearchFlag v)))
    ∧ (∀ (t : String) (aa : Bool), isOkB (buildQuery t none aa) = true)
    ∧ (∀ (t : String) (aa : Bool) (v : String),
        v ∈ (["1_year", "5_years", "10_years"] : List String) →
        isOkB (buildQuery t (some v) aa) = true)
    ∧ (∀ (t : String) (aa : Bool), isOkB (buildQuery t (some "") aa) = true) := by
  refine ⟨?_, fun t aa => rfl, ?_, fun t aa => rfl⟩
  · intro env t lim aa v st g hv0 hvmem
    simp only [List.mem_cons, List.not_mem_nil, or_false, not_or] at hvmem
    obtain ⟨hv1, hv2, hv3⟩ := hvmem
    have hbq : buildQuery (pySpaceToPlus t) (some v) aa =
        .error (.invalidSearchFlag v) := by
      rw [buildQuery, dateFiltered]
      rw [if_neg hv0, if_neg hv1, if_neg hv2, if_neg hv3]
    rw [searchFor]
    simp only [hbq]
  · intro t aa v hmem
    simp only [List.mem_cons, List.not_mem_nil, or_false] at hmem
    rcases hmem with rfl | rfl | rfl <;> rfl

/-- C7 counterexample: the empty string is outside the recognized set
`{1_year, 5_years, 10_years}` (and is not `None`), yet `buildQuery`
accepts it without raising, because Python's `if not_older_than:`
truthiness test skips the validation block for falsy values. -/
theorem c7_counterexample :
    buildQuery "x" (some "") true =
      .ok "https://pubmed.ncbi.nlm.nih.gov/?term=x&filter=simsearch1.fha"
    ∧ "" ∉ (["1_year", "5_years", "10_years"] : List String) := by
  exact ⟨rfl, by decide⟩

/-- Witness for C7: the unrecognized truthy flag `2_years` raises before
any fetch, leaving state, log, and in particular the fetch log intact. -/
theorem c7_witness :
    searchFor envGood "x" 5 (some "2_years") true ⟨[], none⟩ emptyLog
      = (⟨[], none⟩, emptyLog, some (.invalidSearchFlag "2_years")) :=
  c7_filter_amended.1 envGood "x" 5 true "2_years" ⟨[], none⟩ emptyLog
    (by decide) (by decide)

/-- C9 (confirmed): `searchFor` with `limit = 0` performs exactly the
initial page-1 fetch (one new entry in the fetch log, to learn the
total) and returns without error, with the crawler state — in particular
`results` — unchanged, for every query text whose build succeeds. -/
theorem c9_limit_zero (env : FetchEnv) (text : String) (noth : Option String)
    (aa : Bool) (s : CrawlerState) (g : CrawlLog)
    (hq : isOkB (buildQuery (pySpaceToPlus text) noth aa) = true) :
    searchFor env text 0 noth aa s g =
      (s, { g with pageFetches := g.pageFetches ++ [(pySpaceToPlus text, 1)] },
       none) := by
  rw [searchFor]
  rcases hb : buildQuery (pySpaceToPlus text) noth aa with e | qq
  · rw [hb] at hq
    simp [isOkB] at hq
  · simp only [hb, startFromQuery]
    rcases hT : env.total (pySpaceToPlus text) with _ | n
    · rfl
    · rw [crawlLoop, if_pos rfl]

/-- Witness for C9 at a concrete server and query. -/
theorem c9_witness :
    searchFor envGood "q" 0 none true ⟨[], none⟩ emptyLog
      = (⟨[], none⟩,
         { emptyLog with pageFetches := emptyLog.pageFetches ++ [(pySpaceToPlus "q", 1)] },
         none) :=
  c9_limit_zero envGood "q" none true ⟨[], none⟩ emptyLog rfl

/-- C1 (corrected): provenance is appended in discovery order — a record
found by query `a` and later by query `b` ends with
`found_by = [a', b']` (the space-substituted forms) — but `addFoundBy`
never deduplicates: running the same query `a` twice appends it twice,
giving `[a', a']` (see the counterexample), so the claim's "no
duplicates" part fails. -/
theorem c1_provenance_amended (a b : String) (x : Article)
    (abs : Option String) (ap : Option String) (la lb : Nat)
    (ha : 0 < la) (hb : 0 < lb) :
    foundByOf (searchFor (oneRecEnv x abs) b lb none true
        (searchFor (oneRecEnv x abs) a la none true ⟨[], ap⟩ emptyLog).1
        (searchFor (oneRecEnv x abs) a la none true ⟨[], ap⟩ emptyLog).2.1).1 x.id
      = some [pySpaceToPlus a, pySpaceToPlus b]
    ∧ foundByOf (searchFor (oneRecEnv x abs) a la none true
        (searchFor (oneRecEnv x abs) a la none true ⟨[], ap⟩ emptyLog).1
        (searchFor (oneRecEnv x abs) a la none true ⟨[], ap⟩ emptyLog).2.1).1 x.id
      = some [pySpaceToPlus a, pySpaceToPlus a] := by
  have h1 := searchFor_oneRec_fresh x abs a la ha ⟨[], ap⟩ emptyLog rfl
  have key : ∀ (q2 : String) (l2 : Nat), 0 < l2 →
      foundByOf (searchFor (oneRecEnv x abs) q2 l2 none true
        (searchFor (oneRecEnv x abs) a la none true ⟨[], ap⟩ emptyLog).1
        (searchFor (oneRecEnv x abs) a la none true ⟨[], ap⟩ emptyLog).2.1).1 x.id
      = some [pySpaceToPlus a, pySpaceToPlus q2] := by
    intro q2 l2 hl2
    rw [h1]
    rw [searchFor_oneRec_known x abs q2 l2 hl2 _ _ (by simp [pyLookup])]
    show (pyLookup x.id (bumpFoundBy x.id (pySpaceToPlus q2)
        (([] : List (String × Entry)) ++
          [(x.id, ⟨x.id, x.title, x.authors, x.publication,
            [pySpaceToPlus a], abs⟩)]))).map Entry.found_by
      = some [pySpaceToPlus a, pySpaceToPlus q2]
    rw [pyLookup_bump_eq, List.nil_append, pyLookup, if_pos rfl]
    rfl
  exact ⟨key b lb hb, key a la ha⟩

/-- C1 counterexample: searching the same query `"a"` twice over a
single-record server leaves `found_by = ["a", "a"]`: the provenance list
does contain a duplicate, contradicting the claimed invariant. -/
theorem c1_counterexample :
    foundByOf (searchFor envGood "a" 5 none true
        (searchFor envGood "a" 5 none true ⟨[], none⟩ emptyLog).1
        (searchFor envGood "a" 5 none true ⟨[], none⟩ emptyLog).2.1).1 "7"
      = some ["a", "a"]
    ∧ ¬ (["a", "a"] : List String).Nodup := ⟨by decide, by decide⟩

/-- Witness for C1 on concrete queries `a` then `b`. -/
theorem c1_witness :
    foundByOf (searchFor (oneRecEnv artW (some "A")) "b" 5 none true
        (searchFor (oneRecEnv artW (some "A")) "a" 5 none true ⟨[], none⟩ emptyLog).1
        (searchFor (oneRecEnv artW (some "A")) "a" 5 none true ⟨[], none⟩ emptyLog).2.1).1 artW.id
      = some [pySpaceToPlus "a", pySpaceToPlus "b"] :=
  (c1_provenance_amended "a" "b" artW (some "A") none 5 5 (by decide) (by decide)).1

/-- C10 (confirmed): the provenance recorded for a discovered record —
in memory and in the persisted `saveFoundBy` log — is the
space-to-plus substituted form of the query text, not the text the
caller passed; in particular "machine learning" is recorded as
"machine+learning". -/
theorem c10_substituted_provenance (text : String) (x : Article)
    (abs : Option String) (p : String) (limit : Nat) (hl : 0 < limit) :
    (foundByOf (searchFor (oneRecEnv x abs) text limit none true
        ⟨[], some p⟩ emptyLog).1 x.id = some [pySpaceToPlus text]
     ∧ (searchFor (oneRecEnv x abs) text limit none true
        ⟨[], some p⟩ emptyLog).2.1.foundBySaves = [(x.id, pySpaceToPlus text)])
    ∧ pySpaceToPlus "machine learning" = "machine+learning" := by
  refine ⟨?_, by decide⟩
  have h1 := searchFor_oneRec_fresh x abs text limit hl ⟨[], some p⟩ emptyLog rfl
  constructor
  · rw [h1]
    simp [foundByOf, pyLookup]
  · rw [h1]
    simp [addFoundBy, gAdd, emptyLog]

/-- Witness for C10 on the claim's own example text. -/
theorem c10_witness :
    foundByOf (searchFor (oneRecEnv artW (some "A")) "machine learning" 5 none true
        ⟨[], some "arch"⟩ emptyLog).1 artW.id
      = some [pySpaceToPlus "machine learning"]
    ∧ pySpaceToPlus "machine learning" = "machine+learning" := by
  have h := c10_substituted_provenance "machine learning" artW (some "A") "arch" 5
    (by decide)
  exact ⟨h.1.1, h.2⟩

/-- C3 (corrected): a failing detail fetch does *not* let the run
continue — `article.load()` is not wrapped in any handler, so the
exception aborts the whole `searchFor` call at the failing record.
Records processed before it are fully in `results` (with provenance),
the failing record and every record after it are absent, and the failing
id is not marked known, so a later search can retry it. -/
theorem c3_partial_failure_amended (good : List Article) (bad : Article)
    (rest : List Article) (q : String) (limit : Nat) (ap : Option String)
    (dAbs : String → Option String)
    (hnodup : ((good ++ bad :: rest).map Article.id).Nodup)
    (hlim : (good ++ bad :: rest).length ≤ limit) :
    (searchFor (listEnv (good ++ bad :: rest) bad.id dAbs) q limit none true
        ⟨[], ap⟩ emptyLog).2.2 = some PyErr.detailFetchError
    ∧ (searchFor (listEnv (good ++ bad :: rest) bad.id dAbs) q limit none true
        ⟨[], ap⟩ emptyLog).1.results
      = good.map (fun a => (a.id,
          ⟨a.id, a.title, a.authors, a.publication, [pySpaceToPlus q], dAbs a.id⟩))
    ∧ pyLookup bad.id (searchFor (listEnv (good ++ bad :: rest) bad.id dAbs) q
        limit none true ⟨[], ap⟩ emptyLog).1.results = none
    ∧ ∀ y ∈ rest, pyLookup y.id (searchFor (listEnv (good ++ bad :: rest) bad.id dAbs)
        q limit none true ⟨[], ap⟩ emptyLog).1.results = none := by
  rw [List.map_append, List.map_cons, List.nodup_append] at hnodup
  obtain ⟨hndg, _, hdisj⟩ := hnodup
  have hgb : ∀ a ∈ good, ¬ a.id = bad.id := fun a hag he => by
    have hmem := hdisj (List.mem_map_of_mem Article.id hag)
    rw [he] at hmem
    exact hmem (List.mem_cons_self _ _)
  have hbg : bad.id ∉ good.map Article.id := fun hmem =>
    (hdisj hmem) (List.mem_cons_self _ _)
  have hgr : ∀ y ∈ rest, y.id ∉ good.map Article.id := fun y hy hmem =>
    (hdisj hmem) (List.mem_cons_of_mem _ (List.mem_map_of_mem Article.id hy))
  have hlens : (good ++ bad :: rest).length = good.length + rest.length + 1 := by
    simp [List.length_append]
    omega
  have hq1 : buildQuery (pySpaceToPlus q) none true =
      .ok ("https://pubmed.ncbi.nlm.nih.gov/?term=" ++ pySpaceToPlus q
        ++ "&filter=simsearch1.fha") := rfl
  have hTot : (listEnv (good ++ bad :: rest) bad.id dAbs).total (pySpaceToPlus q)
      = (good ++ bad :: rest).length := rfl
  have hPage : (listEnv (good ++ bad :: rest) bad.id dAbs).page (pySpaceToPlus q) 1
      = good ++ bad :: rest := rfl
  have hds : ∀ a ∈ good,
      ((listEnv (good ++ bad :: rest) bad.id dAbs).detail a.id).isSome := by
    intro a ha
    show (if a.id = bad.id then none else some (dAbs a.id)).isSome = true
    rw [if_neg (hgb a ha)]
    rfl
  obtain ⟨g', hg'⟩ := processLoop_ok_append
    (listEnv (good ++ bad :: rest) bad.id dAbs).detail (pySpaceToPlus q) limit
    good (bad :: rest) 0 ⟨[], ap⟩
    { emptyLog with pageFetches := emptyLog.pageFetches ++ [(pySpaceToPlus q, 1)] }
    hds (fun a _ => rfl) hndg (by omega)
  have hkeys : (good.map (entryFor
      (listEnv (good ++ bad :: rest) bad.id dAbs).detail (pySpaceToPlus q))).map
        Prod.fst = good.map Article.id := by
    rw [List.map_map]
    rfl
  have hd3 : (listEnv (good ++ bad :: rest) bad.id dAbs).detail bad.id = none := by
    show (if bad.id = bad.id then none else some (dAbs bad.id)) = none
    rw [if_pos rfl]
  have hkbad : pyLookup bad.id ((⟨[], ap⟩ : CrawlerState).results ++
      good.map (entryFor (listEnv (good ++ bad :: rest) bad.id dAbs).detail
        (pySpaceToPlus q))) = none := by
    apply pyLookup_eq_none_of_not_mem
    show bad.id ∉ (good.map (entryFor
      (listEnv (good ++ bad :: rest) bad.id dAbs).detail (pySpaceToPlus q))).map
        Prod.fst
    rw [hkeys]
    exact hbg
  have hrun : searchFor (listEnv (good ++ bad :: rest) bad.id dAbs) q limit
      none true ⟨[], ap⟩ emptyLog
      = ({ (⟨[], ap⟩ : CrawlerState) with
            results := (⟨[], ap⟩ : CrawlerState).results ++
              good.map (entryFor (listEnv (good ++ bad :: rest) bad.id dAbs).detail
                (pySpaceToPlus q)) },
         { g' with loadCalls := g'.loadCalls ++ [bad.id] },
         some .detailFetchError) := by
    rw [searchFor]
    simp only [hq1, startFromQuery, hTot, hPage]
    rw [crawlLoop_eq_processLoop (listEnv (good ++ bad :: rest) bad.id dAbs)
        (pySpaceToPlus q) limit (good ++ bad :: rest).length 0
        ⟨1, (good ++ bad :: rest).length, good ++ bad :: rest⟩ ⟨[], ap⟩ _ (by simp)]
    simp only [List.drop_zero, List.take_length]
    rw [hg']
    rw [processLoop_fail_head hd3 hkbad (by omega)]
  have hmap : good.map (entryFor
      (listEnv (good ++ bad :: rest) bad.id dAbs).detail (pySpaceToPlus q))
      = good.map (fun a => (a.id,
          ⟨a.id, a.title, a.authors, a.publication, [pySpaceToPlus q], dAbs a.id⟩)) := by
    apply List.map_congr_left
    intro a ha
    have hda : (listEnv (good ++ bad :: rest) bad.id dAbs).detail a.id
        = some (dAbs a.id) := by
      show (if a.id = bad.id then none else some (dAbs a.id)) = some (dAbs a.id)
      rw [if_neg (hgb a ha)]
    simp only [entryFor, hda, Option.getD_some]
  refine ⟨?_, ?_, ?_, ?_⟩
  · rw [hrun]
  · rw [hrun]
    show ([] : List (String × Entry)) ++ good.map (entryFor
      (listEnv (good ++ bad :: rest) bad.id dAbs).detail (pySpaceToPlus q)) = _
    rw [List.nil_append, hmap]
  · rw [hrun]
    exact hkbad
  · intro y hy
    rw [hrun]
    apply pyLookup_eq_none_of_not_mem
    show y.id ∉ (([] : List (String × Entry)) ++ good.map (entryFor
      (listEnv (good ++ bad :: rest) bad.id dAbs).detail (pySpaceToPlus q))).map
        Prod.fst
    rw [List.nil_append, hkeys]
    exact hgr y hy

/-- C3 counterexample: in the spec's own five-record scenario (detail
fetch fails for record 3), the run does not continue: it aborts with the
detail-fetch error, and record 4 — which the claim says must be fully
populated in `results` — is absent. -/
theorem c3_counterexample :
    (searchFor (listEnv (goodW ++ badW :: restW) "3" (fun _ => some "A")) "q" 10
        none true ⟨[], none⟩ emptyLog).2.2 = some PyErr.detailFetchError
    ∧ pyLookup "4" (searchFor (listEnv (goodW ++ badW :: restW) "3"
        (fun _ => some "A")) "q" 10 none true ⟨[], none⟩ emptyLog).1.results
      = none :=
  ⟨by decide, by decide⟩

/-- Witness for C3 on the concrete five-record scenario. -/
theorem c3_witness :
    (searchFor (listEnv (goodW ++ badW :: restW) badW.id (fun _ => some "A"))
        "q" 10 none true ⟨[], none⟩ emptyLog).2.2 = some PyErr.detailFetchError
    ∧ pyLookup badW.id (searchFor (listEnv (goodW ++ badW :: restW) badW.id
        (fun _ => some "A")) "q" 10 none true ⟨[], none⟩ emptyLog).1.results
      = none := by
  have h := c3_partial_failure_amended goodW badW restW "q" 10 none
    (fun _ => some "A") (by decide) (by decide)
  exact ⟨h.1, h.2.2.1⟩

end PubMedAPI
